import Mathlib

/-
  Verification development for ext/pg_type_map_by_mri_type.c
  (PG::TypeMapByMriType, the MRI-type-tag keyed encoder dispatch table).

  Shallow embedding notes:
  * The 18 MRI type tags handled by the FOR_EACH_MRI_TYPE macro become the
    inductive MriType; TYPE() of a Ruby value returns an MriTag, which is
    either one of these 18 known tags or an unknown numeric tag (covering
    T_NIL and every other tag outside the macro list).
  * Ruby VALUEs are modelled by the inductive RubyValue.  A value that is
    kind_of PG::Coder is modelled by the coder constructor carrying the
    identity of its wrapped t_pg_coder struct; Data_Get_Struct on it yields
    that identity, and the coder_obj back-reference stored in the struct is
    the coder value itself (as in the pg extension, where the wrapping
    object and coder_obj coincide).
  * rb_raise is modelled with Except: pg_tmbmt_aset and pg_tmbmt_aref return
    Except RubyError, with ArgumentError and TypeError as the two error
    classes used by this file.  rb_raise fires before any slot assignment,
    so a raising call leaves the receiver unchanged; asetRun makes that
    explicit by returning the untouched receiver together with the error.
  * The t_typemap vtable set up in pg_tmbmt_s_allocate (fit_to_result,
    typecast_result_value, ... pointing to the shared pg_typemap defaults)
    is call plumbing and is not part of the slot state; the two functions
    this file itself implements, pg_tmbmt_fit_to_query and
    pg_tmbmt_typecast_query_param, are embedded directly.
  * rb_funcall on a symbol-named method of self and rb_funcall of call on a
    proc are external user code; pg_tmbmt_typecast_query_param takes them as
    explicit oracle parameters funcallSelf and callProc.
  * pg_tmbmt_aset and pg_tmbmt_aref receive the category name as a String
    (the C obtains it via StringValueCStr); rb_inspect of a plain String is
    modelled as surrounding double quotes (character escaping is not needed
    for the canonical names).
-/

/-- The 18 MRI type tags enumerated by the FOR_EACH_MRI_TYPE macro,
in macro order. -/
inductive MriType where
  | T_FIXNUM
  | T_TRUE
  | T_FALSE
  | T_FLOAT
  | T_BIGNUM
  | T_COMPLEX
  | T_RATIONAL
  | T_ARRAY
  | T_STRING
  | T_SYMBOL
  | T_OBJECT
  | T_CLASS
  | T_MODULE
  | T_REGEXP
  | T_HASH
  | T_STRUCT
  | T_FILE
  | T_DATA
deriving DecidableEq, Repr

/-- The FOR_EACH_MRI_TYPE macro order, used by the strcmp chains and by
pg_tmbmt_coders. -/
def mriTypeList : List MriType :=
  [ .T_FIXNUM, .T_TRUE, .T_FALSE, .T_FLOAT, .T_BIGNUM, .T_COMPLEX,
    .T_RATIONAL, .T_ARRAY, .T_STRING, .T_SYMBOL, .T_OBJECT, .T_CLASS,
    .T_MODULE, .T_REGEXP, .T_HASH, .T_STRUCT, .T_FILE, .T_DATA ]

/-- The canonical name of each tag: the stringification #type used by
COMPARE_AND_ASSIGN, COMPARE_AND_GET and ADD_TO_HASH. -/
def mriName : MriType → String
  | .T_FIXNUM => "T_FIXNUM"
  | .T_TRUE => "T_TRUE"
  | .T_FALSE => "T_FALSE"
  | .T_FLOAT => "T_FLOAT"
  | .T_BIGNUM => "T_BIGNUM"
  | .T_COMPLEX => "T_COMPLEX"
  | .T_RATIONAL => "T_RATIONAL"
  | .T_ARRAY => "T_ARRAY"
  | .T_STRING => "T_STRING"
  | .T_SYMBOL => "T_SYMBOL"
  | .T_OBJECT => "T_OBJECT"
  | .T_CLASS => "T_CLASS"
  | .T_MODULE => "T_MODULE"
  | .T_REGEXP => "T_REGEXP"
  | .T_HASH => "T_HASH"
  | .T_STRUCT => "T_STRUCT"
  | .T_FILE => "T_FILE"
  | .T_DATA => "T_DATA"

/-- The strcmp chain generated by FOR_EACH_MRI_TYPE(COMPARE_AND_ASSIGN) and
FOR_EACH_MRI_TYPE(COMPARE_AND_GET): the first matching canonical name wins,
no match falls through to the rb_raise branch (here: none). -/
def mriTypeOfName (s : String) : Option MriType :=
  if s = "T_FIXNUM" then some .T_FIXNUM
  else if s = "T_TRUE" then some .T_TRUE
  else if s = "T_FALSE" then some .T_FALSE
  else if s = "T_FLOAT" then some .T_FLOAT
  else if s = "T_BIGNUM" then some .T_BIGNUM
  else if s = "T_COMPLEX" then some .T_COMPLEX
  else if s = "T_RATIONAL" then some .T_RATIONAL
  else if s = "T_ARRAY" then some .T_ARRAY
  else if s = "T_STRING" then some .T_STRING
  else if s = "T_SYMBOL" then some .T_SYMBOL
  else if s = "T_OBJECT" then some .T_OBJECT
  else if s = "T_CLASS" then some .T_CLASS
  else if s = "T_MODULE" then some .T_MODULE
  else if s = "T_REGEXP" then some .T_REGEXP
  else if s = "T_HASH" then some .T_HASH
  else if s = "T_STRUCT" then some .T_STRUCT
  else if s = "T_FILE" then some .T_FILE
  else if s = "T_DATA" then some .T_DATA
  else none

/-- The result of TYPE(): one of the 18 tags handled by the switch, or any
other MRI tag (T_NIL, T_NONE, ...), carrying its numeric code. -/
inductive MriTag where
  | known (t : MriType)
  | unknown (code : Nat)
deriving DecidableEq, Repr

/-- Ruby VALUEs, as far as this extension inspects them: Qnil, Symbols,
objects that are kind_of PG::Coder (carrying the identity of their wrapped
t_pg_coder struct), and all other objects (carrying their TYPE tag, their
class name as reported by rb_obj_classname, and an identity). -/
inductive RubyValue where
  | nil
  | sym (name : String)
  | coder (id : Nat)
  | obj (tag : MriTag) (className : String) (id : Nat)
deriving DecidableEq, Repr

/-- TYPE() of a value.  Qnil has tag T_NIL, outside the 18 handled tags;
Symbols are T_SYMBOL; PG::Coder instances are Data-wrapped objects
(T_DATA). -/
def TYPE : RubyValue → MriTag
  | .nil => .unknown 17
  | .sym _ => .known .T_SYMBOL
  | .coder _ => .known .T_DATA
  | .obj tag _ _ => tag

/-- NIL_P(). -/
def NIL_P : RubyValue → Bool
  | .nil => true
  | _ => false

/-- rb_obj_is_kind_of(v, rb_cPG_Coder). -/
def rb_obj_is_kind_of_coder : RubyValue → Bool
  | .coder _ => true
  | _ => false

/-- rb_obj_classname(). -/
def rb_obj_classname : RubyValue → String
  | .nil => "NilClass"
  | .sym _ => "Symbol"
  | .coder _ => "PG::Coder"
  | .obj _ className _ => className

/-- Data_Get_Struct(v, t_pg_coder, ...): the wrapped t_pg_coder struct of a
PG::Coder instance (none for anything else; only reached under a successful
rb_obj_is_kind_of check). -/
def coder_struct_of : RubyValue → Option Nat
  | .coder id => some id
  | _ => none

/-- The coder_obj back-reference of a t_pg_coder struct: the Ruby object
wrapping it. -/
def coder_obj (p : Nat) : RubyValue :=
  .coder p

/-- One slot of struct pg_tmbmt_converter: the coder_##type pointer (NULL
modelled as none) and the ask_##type VALUE (no resolver modelled as
RubyValue.nil, matching Qnil). -/
structure Slot where
  coder : Option Nat
  ask : RubyValue
deriving DecidableEq, Repr

/-- t_tmbmt: the converter table, one Slot per handled MRI tag.  The
t_typemap vtable installed by pg_tmbmt_s_allocate is not part of the slot
state (see the header comment). -/
structure t_tmbmt where
  coders : MriType → Slot

/-- The two Ruby exception classes raised by this file: rb_eArgError from
pg_tmbmt_aset and pg_tmbmt_aref, rb_eTypeError from
pg_tmbmt_typecast_query_param. -/
inductive RubyError where
  | argError (msg : String)
  | typeError (msg : String)
deriving DecidableEq, Repr

/-- pg_tmbmt_s_allocate: INIT_VARIABLES sets every coder_##type to NULL and
every ask_##type to Qnil. -/
def pg_tmbmt_s_allocate : t_tmbmt :=
  ⟨fun _ => { coder := none, ask := RubyValue.nil }⟩

/-- The body of one COMPARE_AND_ASSIGN branch: nil clears the slot, a
PG::Coder installs its struct and clears ask, anything else clears the
struct and installs the value as ask. -/
def compare_and_assign (coder : RubyValue) : Slot :=
  if NIL_P coder then
    { coder := none, ask := RubyValue.nil }
  else if rb_obj_is_kind_of_coder coder then
    { coder := coder_struct_of coder, ask := RubyValue.nil }
  else
    { coder := none, ask := coder }

/-- rb_inspect of the mri_type String argument, used in the unknown
mri_type message: surrounding double quotes. -/
def rb_inspect_string (s : String) : String :=
  "\"" ++ s ++ "\""

/-- pg_tmbmt_aset: the strcmp chain assigns the matched slot via
COMPARE_AND_ASSIGN, an unmatched name raises ArgumentError naming the
inspected string. -/
def pg_tmbmt_aset (this : t_tmbmt) (mri_type : String) (coder : RubyValue) :
    Except RubyError t_tmbmt :=
  match mriTypeOfName mri_type with
  | some t =>
      .ok ⟨fun u => if u = t then compare_and_assign coder else this.coders u⟩
  | none =>
      .error (.argError ("unknown mri_type " ++ rb_inspect_string mri_type))

/-- pg_tmbmt_aset with the exception semantics of rb_raise made explicit:
the raise fires in the final else branch, before any slot was written, so
the receiver keeps its prior state. -/
def asetRun (this : t_tmbmt) (mri_type : String) (coder : RubyValue) :
    t_tmbmt × Option RubyError :=
  match pg_tmbmt_aset this mri_type coder with
  | .ok t2 => (t2, none)
  | .error e => (this, some e)

/-- The body of one COMPARE_AND_GET branch: the coder_obj of the installed
struct if the slot is static, otherwise the ask value (Qnil when empty). -/
def compare_and_get (s : Slot) : RubyValue :=
  match s.coder with
  | some p => coder_obj p
  | none => s.ask

/-- pg_tmbmt_aref: the strcmp chain reads the matched slot via
COMPARE_AND_GET, an unmatched name raises ArgumentError naming the
inspected string. -/
def pg_tmbmt_aref (this : t_tmbmt) (mri_type : String) :
    Except RubyError RubyValue :=
  match mriTypeOfName mri_type with
  | some t => .ok (compare_and_get (this.coders t))
  | none =>
      .error (.argError ("unknown mri_type " ++ rb_inspect_string mri_type))

/-- A Ruby Hash as produced by pg_tmbmt_coders: its entries in insertion
order and its frozen flag (the keys are frozen strings as well; only the
frozen state of the hash itself is tracked). -/
structure RHash where
  entries : List (String × RubyValue)
  frozen : Bool
deriving DecidableEq, Repr

/-- pg_tmbmt_coders: ADD_TO_HASH inserts, in macro order, each canonical
name mapped to coder_obj of the static struct or else the ask value, and
the hash is frozen before being returned. -/
def pg_tmbmt_coders (this : t_tmbmt) : RHash :=
  { entries := mriTypeList.map (fun t => (mriName t, compare_and_get (this.coders t))),
    frozen := true }

/-- pg_tmbmt_fit_to_query: returns self, ignoring the params array. -/
def pg_tmbmt_fit_to_query (self : t_tmbmt) (params : List RubyValue) : t_tmbmt :=
  self

/-- The resolver invocation inside pg_tmbmt_typecast_query_param: a Symbol
is sent to self (rb_funcall(self, SYM2ID(...), 1, param_value), abstracted
as the funcallSelf oracle), anything else receives call with the value
(abstracted as the callProc oracle). -/
def resolver_call (funcallSelf : String → RubyValue → RubyValue)
    (callProc : RubyValue → RubyValue → RubyValue)
    (ask_for_coder param_value : RubyValue) : RubyValue :=
  match TYPE ask_for_coder with
  | .known .T_SYMBOL =>
      match ask_for_coder with
      | .sym name => funcallSelf name param_value
      | v => callProc v param_value
  | _ => callProc ask_for_coder param_value

/-- The rb_raise message of pg_tmbmt_typecast_query_param, with the
1-based field position and the class name of the offending object. -/
def invalid_type_message (field : Nat) (obj : RubyValue) : String :=
  "argument " ++ toString (field + 1) ++ " has invalid type " ++
    rb_obj_classname obj ++ " (should be nil or some kind of PG::Coder)"

/-- pg_tmbmt_typecast_query_param: the switch on TYPE(param_value) reads
the matched slot via CASE_AND_GET (the default branch yields NULL and
Qnil); a non-nil ask_for_coder is invoked via resolver_call and its result
must be kind_of PG::Coder, else rb_eTypeError is raised; otherwise the
static pointer (possibly NULL) is returned. -/
def pg_tmbmt_typecast_query_param
    (funcallSelf : String → RubyValue → RubyValue)
    (callProc : RubyValue → RubyValue → RubyValue)
    (this : t_tmbmt) (param_value : RubyValue) (field : Nat) :
    Except RubyError (Option Nat) :=
  let slot :=
    match TYPE param_value with
    | .known t => this.coders t
    | .unknown _ => { coder := none, ask := RubyValue.nil }
  if NIL_P slot.ask = false then
    let obj := resolver_call funcallSelf callProc slot.ask param_value
    if rb_obj_is_kind_of_coder obj then
      .ok (coder_struct_of obj)
    else
      .error (.typeError (invalid_type_message field obj))
  else
    .ok slot.coder

/-- The slot invariant: never static and dynamic at once. -/
def slotOK (s : Slot) : Prop :=
  s.coder = none ∨ s.ask = RubyValue.nil

/-- A sequence of aset calls applied in order, a raising call leaving the
table unchanged (asetRun). -/
def applyAssigns (this : t_tmbmt) : List (String × RubyValue) → t_tmbmt
  | [] => this
  | (s, v) :: rest => applyAssigns (asetRun this s v).1 rest

/-- The value of the most recent assignment to name n in the sequence l
(later entries win), if any. -/
def lastAssigned (l : List (String × RubyValue)) (n : String) :
    Option RubyValue :=
  match l with
  | [] => none
  | p :: rest =>
      match lastAssigned rest n with
      | some w => some w
      | none => if p.1 = n then some p.2 else none

/-- What the spec says a lookup reports after a sequence of assignments:
the most recently assigned value, or nothing if never assigned. -/
def lastAssignedValue (l : List (String × RubyValue)) (n : String) :
    RubyValue :=
  match lastAssigned l n with
  | some v => v
  | none => RubyValue.nil

/-! Helper lemmas shared by several claims. -/

lemma mriTypeOfName_mriName (t : MriType) : mriTypeOfName (mriName t) = some t := by
  cases t <;> rfl

lemma name_eq_of_mriTypeOfName {s : String} {t : MriType}
    (h : mriTypeOfName s = some t) : s = mriName t := by
  unfold mriTypeOfName at h
  by_cases h1 : s = "T_FIXNUM"
  · rw [if_pos h1] at h; injection h with he; subst he; exact h1
  rw [if_neg h1] at h
  by_cases h2 : s = "T_TRUE"
  · rw [if_pos h2] at h; injection h with he; subst he; exact h2
  rw [if_neg h2] at h
  by_cases h3 : s = "T_FALSE"
  · rw [if_pos h3] at h; injection h with he; subst he; exact h3
  rw [if_neg h3] at h
  by_cases h4 : s = "T_FLOAT"
  · rw [if_pos h4] at h; injection h with he; subst he; exact h4
  rw [if_neg h4] at h
  by_cases h5 : s = "T_BIGNUM"
  · rw [if_pos h5] at h; injection h with he; subst he; exact h5
  rw [if_neg h5] at h
  by_cases h6 : s = "T_COMPLEX"
  · rw [if_pos h6] at h; injection h with he; subst he; exact h6
  rw [if_neg h6] at h
  by_cases h7 : s = "T_RATIONAL"
  · rw [if_pos h7] at h; injection h with he; subst he; exact h7
  rw [if_neg h7] at h
  by_cases h8 : s = "T_ARRAY"
  · rw [if_pos h8] at h; injection h with he; subst he; exact h8
  rw [if_neg h8] at h
  by_cases h9 : s = "T_STRING"
  · rw [if_pos h9] at h; injection h with he; subst he; exact h9
  rw [if_neg h9] at h
  by_cases h10 : s = "T_SYMBOL"
  · rw [if_pos h10] at h; injection h with he; subst he; exact h10
  rw [if_neg h10] at h
  by_cases h11 : s = "T_OBJECT"
  · rw [if_pos h11] at h; injection h with he; subst he; exact h11
  rw [if_neg h11] at h
  by_cases h12 : s = "T_CLASS"
  · rw [if_pos h12] at h; injection h with he; subst he; exact h12
  rw [if_neg h12] at h
  by_cases h13 : s = "T_MODULE"
  · rw [if_pos h13] at h; injection h with he; subst he; exact h13
  rw [if_neg h13] at h
  by_cases h14 : s = "T_REGEXP"
  · rw [if_pos h14] at h; injection h with he; subst he; exact h14
  rw [if_neg h14] at h
  by_cases h15 : s = "T_HASH"
  · rw [if_pos h15] at h; injection h with he; subst he; exact h15
  rw [if_neg h15] at h
  by_cases h16 : s = "T_STRUCT"
  · rw [if_pos h16] at h; injection h with he; subst he; exact h16
  rw [if_neg h16] at h
  by_cases h17 : s = "T_FILE"
  · rw [if_pos h17] at h; injection h with he; subst he; exact h17
  rw [if_neg h17] at h
  by_cases h18 : s = "T_DATA"
  · rw [if_pos h18] at h; injection h with he; subst he; exact h18
  rw [if_neg h18] at h
  exact Option.noConfusion h

lemma compare_and_get_compare_and_assign (v : RubyValue) :
    compare_and_get (compare_and_assign v) = v := by
  cases v <;> rfl

lemma aset_valid (this : t_tmbmt) {name : String} {t : MriType}
    (h : mriTypeOfName name = some t) (v : RubyValue) :
    pg_tmbmt_aset this name v =
      .ok ⟨fun u => if u = t then compare_and_assign v else this.coders u⟩ := by
  simp [pg_tmbmt_aset, h]

/-- Claim C9: the fit-to-query operation is the identity on the table, for
every table instance and every parameter list, with no mutation of any
slot. -/
theorem claim_C9_fit_to_query_identity (self : t_tmbmt) (params : List RubyValue) :
    pg_tmbmt_fit_to_query self params = self :=
  rfl

/-- Claim C3: a value whose TYPE tag is outside the 18-tag enumeration
dispatches to none, with no error and independently of the resolver
oracles (so no Resolver is invoked). -/
theorem claim_C3_unknown_tag_yields_none
    (funcallSelf : String → RubyValue → RubyValue)
    (callProc : RubyValue → RubyValue → RubyValue)
    (this : t_tmbmt) (v : RubyValue) (field : Nat) (c : Nat)
    (h : TYPE v = .unknown c) :
    pg_tmbmt_typecast_query_param funcallSelf callProc this v field = .ok none := by
  simp [pg_tmbmt_typecast_query_param, h, NIL_P]

/-- Witness for C3: Qnil (tag T_NIL) dispatches to none on a table whose
every slot holds a resolver, under oracles that never return a coder. -/
theorem claim_C3_witness :
    TYPE RubyValue.nil = .unknown 17 ∧
    pg_tmbmt_typecast_query_param (fun _ _ => RubyValue.nil)
      (fun _ _ => RubyValue.nil)
      ⟨fun _ => { coder := none, ask := RubyValue.sym "resolve" }⟩
      RubyValue.nil 0 = .ok none :=
  ⟨rfl, claim_C3_unknown_tag_yields_none _ _ _ _ 0 17 rfl⟩

/-- Claim C8: a value classified to a tag whose slot is static (ask is
Qnil, a struct installed) dispatches to that Coder, independently of the
resolver oracles (no callable is invoked); the table is not an output, so
no state is modified. -/
theorem claim_C8_static_slot_returns_coder
    (funcallSelf : String → RubyValue → RubyValue)
    (callProc : RubyValue → RubyValue → RubyValue)
    (this : t_tmbmt) (v : RubyValue) (field : Nat) (t : MriType) (c : Nat)
    (ht : TYPE v = .known t)
    (hs : this.coders t = { coder := some c, ask := RubyValue.nil }) :
    pg_tmbmt_typecast_query_param funcallSelf callProc this v field = .ok (some c) := by
  simp [pg_tmbmt_typecast_query_param, ht, hs, NIL_P]

/-- Witness for C8: a String value dispatched on a table with a static
Coder at T_STRING returns that Coder, under oracles that never return a
coder. -/
theorem claim_C8_witness :
    TYPE (RubyValue.obj (.known .T_STRING) "String" 4) = .known .T_STRING ∧
    pg_tmbmt_typecast_query_param (fun _ _ => RubyValue.nil)
      (fun _ _ => RubyValue.nil)
      ⟨fun u => if u = MriType.T_STRING
        then { coder := some 9, ask := RubyValue.nil }
        else { coder := none, ask := RubyValue.nil }⟩
      (RubyValue.obj (.known .T_STRING) "String" 4) 0 = .ok (some 9) :=
  ⟨rfl, claim_C8_static_slot_returns_coder _ _ _ _ 0 .T_STRING 9 rfl rfl⟩

/-- Claim C2: a dynamic resolver whose result is neither nil nor kind_of
PG::Coder makes dispatch raise TypeError with the 1-based position
(field + 1) and the class name of the result. -/
theorem claim_C2_bad_resolver_result_raises
    (funcallSelf : String → RubyValue → RubyValue)
    (callProc : RubyValue → RubyValue → RubyValue)
    (this : t_tmbmt) (v : RubyValue) (field : Nat) (t : MriType) (r : RubyValue)
    (ht : TYPE v = .known t)
    (ha : NIL_P (this.coders t).ask = false)
    (hr : resolver_call funcallSelf callProc (this.coders t).ask v = r)
    (hnil : NIL_P r = false)
    (hk : rb_obj_is_kind_of_coder r = false) :
    pg_tmbmt_typecast_query_param funcallSelf callProc this v field =
      .error (.typeError ("argument " ++ toString (field + 1) ++
        " has invalid type " ++ rb_obj_classname r ++
        " (should be nil or some kind of PG::Coder)")) := by
  simp [pg_tmbmt_typecast_query_param, ht, ha, hr, hk, invalid_type_message]

/-- Witness for C2: a proc assigned at T_STRING that returns the Integer
42; dispatching a String at 0-based position 2 raises TypeError reporting
argument 3 and class Integer. -/
theorem claim_C2_witness :
    pg_tmbmt_typecast_query_param (fun _ _ => RubyValue.nil)
      (fun _ _ => RubyValue.obj (.known .T_FIXNUM) "Integer" 42)
      ⟨fun u => if u = MriType.T_STRING
        then { coder := none, ask := RubyValue.obj (.known .T_DATA) "Proc" 7 }
        else { coder := none, ask := RubyValue.nil }⟩
      (RubyValue.obj (.known .T_STRING) "String" 4) 2 =
      .error (.typeError
        "argument 3 has invalid type Integer (should be nil or some kind of PG::Coder)") :=
  claim_C2_bad_resolver_result_raises _ _ _ _ 2 .T_STRING
    (RubyValue.obj (.known .T_FIXNUM) "Integer" 42) rfl rfl rfl rfl rfl

/-- Claim C1 (code evaluation at the failing input): a Proc resolver
assigned at T_STRING that returns nil; dispatching a String at 0-based
position 0 does NOT yield none — the code raises TypeError naming
NilClass, although its own message text says nil should be accepted. -/
theorem claim_C1_nil_resolver_result_raises :
    pg_tmbmt_typecast_query_param (fun _ _ => RubyValue.nil)
      (fun _ _ => RubyValue.nil)
      (asetRun pg_tmbmt_s_allocate "T_STRING"
        (RubyValue.obj (.known .T_DATA) "Proc" 7)).1
      (RubyValue.obj (.known .T_STRING) "String" 4) 0 =
      .error (.typeError
        "argument 1 has invalid type NilClass (should be nil or some kind of PG::Coder)") :=
  rfl

/-- Claim C4: a name outside the 18 canonical names makes assignment raise
ArgumentError naming the inspected string while every slot keeps its prior
state (the raise fires before any assignment), and lookup performs the same
validation with the same error. -/
theorem claim_C4_unknown_name_raises_unchanged
    (this : t_tmbmt) (s : String) (v : RubyValue)
    (h : mriTypeOfName s = none) :
    asetRun this s v =
      (this, some (.argError ("unknown mri_type " ++ rb_inspect_string s))) ∧
    pg_tmbmt_aref this s =
      .error (.argError ("unknown mri_type " ++ rb_inspect_string s)) := by
  constructor
  · simp [asetRun, pg_tmbmt_aset, h]
  · simp [pg_tmbmt_aref, h]

/-- Witness for C4: assigning a coder under the name T_NIL on a table with
a static Coder at T_FIXNUM raises and leaves the table as it was; lookup
of T_NIL raises the same error. -/
theorem claim_C4_witness :
    asetRun
      ⟨fun u => if u = MriType.T_FIXNUM
        then { coder := some 3, ask := RubyValue.nil }
        else { coder := none, ask := RubyValue.nil }⟩
      "T_NIL" (RubyValue.coder 5) =
      (⟨fun u => if u = MriType.T_FIXNUM
        then { coder := some 3, ask := RubyValue.nil }
        else { coder := none, ask := RubyValue.nil }⟩,
       some (.argError "unknown mri_type \"T_NIL\"")) ∧
    pg_tmbmt_aref
      ⟨fun u => if u = MriType.T_FIXNUM
        then { coder := some 3, ask := RubyValue.nil }
        else { coder := none, ask := RubyValue.nil }⟩
      "T_NIL" = .error (.argError "unknown mri_type \"T_NIL\"") :=
  claim_C4_unknown_name_raises_unchanged _ "T_NIL" (RubyValue.coder 5) rfl

/-- Claim C5: on any table and any valid category name, assigning nil then
looking the name up yields nil, and assigning any Coder then looking the
name up yields that same Coder object. -/
theorem claim_C5_assign_lookup_roundtrip
    (this : t_tmbmt) (name : String) (t : MriType)
    (h : mriTypeOfName name = some t) :
    (pg_tmbmt_aset this name RubyValue.nil).bind
      (fun t2 => pg_tmbmt_aref t2 name) = .ok RubyValue.nil ∧
    ∀ id : Nat,
      (pg_tmbmt_aset this name (RubyValue.coder id)).bind
        (fun t2 => pg_tmbmt_aref t2 name) = .ok (RubyValue.coder id) := by
  constructor
  · simp [aset_valid this h, Except.bind, pg_tmbmt_aref, h,
      compare_and_get_compare_and_assign]
  · intro id
    simp [aset_valid this h, Except.bind, pg_tmbmt_aref, h,
      compare_and_get_compare_and_assign]

/-- Witness for C5: on the freshly allocated table at name T_ARRAY, with
the Coder case instantiated at struct identity 7. -/
theorem claim_C5_witness :
    (pg_tmbmt_aset pg_tmbmt_s_allocate "T_ARRAY" RubyValue.nil).bind
      (fun t2 => pg_tmbmt_aref t2 "T_ARRAY") = .ok RubyValue.nil ∧
    (pg_tmbmt_aset pg_tmbmt_s_allocate "T_ARRAY" (RubyValue.coder 7)).bind
      (fun t2 => pg_tmbmt_aref t2 "T_ARRAY") = .ok (RubyValue.coder 7) :=
  ⟨(claim_C5_assign_lookup_roundtrip pg_tmbmt_s_allocate "T_ARRAY" .T_ARRAY rfl).1,
   (claim_C5_assign_lookup_roundtrip pg_tmbmt_s_allocate "T_ARRAY" .T_ARRAY rfl).2 7⟩

/-- Claim C6: a freshly allocated table has all 18 slots empty; one
COMPARE_AND_ASSIGN installs exactly one of the three slot states (empty
for nil, static for a Coder, dynamic for anything else), each clearing the
other, so an assigned slot always satisfies the never-static-and-dynamic
invariant; and a successful aset preserves that invariant on every slot of
the table. -/
theorem claim_C6_slot_invariant :
    (∀ t, pg_tmbmt_s_allocate.coders t = { coder := none, ask := RubyValue.nil }) ∧
    (∀ v : RubyValue,
      slotOK (compare_and_assign v) ∧
      (NIL_P v = true →
        compare_and_assign v = { coder := none, ask := RubyValue.nil }) ∧
      (rb_obj_is_kind_of_coder v = true →
        compare_and_assign v = { coder := coder_struct_of v, ask := RubyValue.nil }) ∧
      (NIL_P v = false → rb_obj_is_kind_of_coder v = false →
        compare_and_assign v = { coder := none, ask := v })) ∧
    (∀ (this : t_tmbmt) (s : String) (v : RubyValue) (this2 : t_tmbmt),
      pg_tmbmt_aset this s v = .ok this2 →
      (∀ t, slotOK (this.coders t)) → ∀ t, slotOK (this2.coders t)) := by
  refine ⟨fun t => rfl, fun v => ?_, ?_⟩
  · refine ⟨?_, ?_, ?_, ?_⟩
    · cases v <;> simp [slotOK, compare_and_assign, NIL_P, rb_obj_is_kind_of_coder]
    · intro hv; cases v <;> simp_all [compare_and_assign, NIL_P]
    · intro hv
      cases v <;> simp_all [compare_and_assign, NIL_P, rb_obj_is_kind_of_coder]
    · intro hv hk
      cases v <;> simp_all [compare_and_assign, NIL_P, rb_obj_is_kind_of_coder]
  · intro this s v this2 hset hok t
    unfold pg_tmbmt_aset at hset
    cases hname : mriTypeOfName s with
    | none => rw [hname] at hset; exact Except.noConfusion hset
    | some u =>
        rw [hname] at hset
        injection hset with he
        subst he
        by_cases htu : t = u
        · subst htu
          simp only [if_pos rfl]
          cases v <;> simp [slotOK, compare_and_assign, NIL_P, rb_obj_is_kind_of_coder,
            coder_struct_of]
        · simpa [htu] using hok t

/-- Witness for C6: assigning a Coder at T_TRUE on the freshly allocated
table (which satisfies the invariant slot by slot) keeps every slot of the
result within the invariant, checked at T_FIXNUM. -/
theorem claim_C6_witness :
    slotOK ((⟨fun u => if u = MriType.T_TRUE
        then compare_and_assign (RubyValue.coder 3)
        else pg_tmbmt_s_allocate.coders u⟩ : t_tmbmt).coders MriType.T_FIXNUM) :=
  claim_C6_slot_invariant.2.2 pg_tmbmt_s_allocate "T_TRUE" (RubyValue.coder 3)
    _ rfl (fun _ => Or.inl rfl) MriType.T_FIXNUM

lemma dispatch_dynamic_bad_result
    (funcallSelf : String → RubyValue → RubyValue)
    (callProc : RubyValue → RubyValue → RubyValue)
    (this : t_tmbmt) (w : RubyValue) (field : Nat) (t : MriType)
    (ht : TYPE w = .known t)
    (ha : NIL_P (this.coders t).ask = false)
    (hk : rb_obj_is_kind_of_coder
      (resolver_call funcallSelf callProc (this.coders t).ask w) = false) :
    pg_tmbmt_typecast_query_param funcallSelf callProc this w field =
      .error (.typeError (invalid_type_message field
        (resolver_call funcallSelf callProc (this.coders t).ask w))) := by
  simp [pg_tmbmt_typecast_query_param, ht, ha, hk]

/-- Claim C10: any non-nil value that is not kind_of PG::Coder — an
Integer included — is accepted by assignment under a valid name and
installed as the dynamic resolver of the slot, with no validation; the
malformed resolver only fails later, at dispatch, when its invocation
result is not a Coder. -/
theorem claim_C10_no_resolver_validation_at_assign
    (this : t_tmbmt) (name : String) (t : MriType) (v : RubyValue)
    (hn : mriTypeOfName name = some t)
    (hnil : NIL_P v = false)
    (hk : rb_obj_is_kind_of_coder v = false) :
    pg_tmbmt_aset this name v = .ok (asetRun this name v).1 ∧
    ((asetRun this name v).1).coders t = { coder := none, ask := v } ∧
    ∀ (funcallSelf : String → RubyValue → RubyValue)
      (callProc : RubyValue → RubyValue → RubyValue)
      (w : RubyValue) (field : Nat),
      TYPE w = .known t →
      rb_obj_is_kind_of_coder (resolver_call funcallSelf callProc v w) = false →
      pg_tmbmt_typecast_query_param funcallSelf callProc
        (asetRun this name v).1 w field =
        .error (.typeError (invalid_type_message field
          (resolver_call funcallSelf callProc v w))) := by
  have hslot : ((asetRun this name v).1).coders t = { coder := none, ask := v } := by
    simp [asetRun, aset_valid this hn v, compare_and_assign, hnil, hk]
  refine ⟨?_, hslot, ?_⟩
  · simp [asetRun, aset_valid this hn v]
  · intro funcallSelf callProc w field hw hbad
    have ha : NIL_P (((asetRun this name v).1).coders t).ask = false := by
      rw [hslot]; exact hnil
    have := dispatch_dynamic_bad_result funcallSelf callProc
      (asetRun this name v).1 w field t hw ha (by rw [hslot]; exact hbad)
    rw [hslot] at this
    exact this

/-- Witness for C10: the Integer 42 assigned at T_STRING is installed as a
resolver; dispatching a String then raises TypeError (here the invocation
oracle yields nil, which this code also rejects). -/
theorem claim_C10_witness :
    ((asetRun pg_tmbmt_s_allocate "T_STRING"
        (RubyValue.obj (.known .T_FIXNUM) "Integer" 42)).1).coders MriType.T_STRING =
      { coder := none, ask := RubyValue.obj (.known .T_FIXNUM) "Integer" 42 } ∧
    pg_tmbmt_typecast_query_param (fun _ _ => RubyValue.nil)
      (fun _ _ => RubyValue.nil)
      (asetRun pg_tmbmt_s_allocate "T_STRING"
        (RubyValue.obj (.known .T_FIXNUM) "Integer" 42)).1
      (RubyValue.obj (.known .T_STRING) "String" 4) 0 =
      .error (.typeError (invalid_type_message 0 RubyValue.nil)) :=
  have h := claim_C10_no_resolver_validation_at_assign pg_tmbmt_s_allocate
    "T_STRING" .T_STRING (RubyValue.obj (.known .T_FIXNUM) "Integer" 42)
    rfl rfl rfl
  ⟨h.2.1, h.2.2 (fun _ _ => RubyValue.nil) (fun _ _ => RubyValue.nil)
    (RubyValue.obj (.known .T_STRING) "String" 4) 0 rfl rfl⟩

lemma applyAssigns_coders (l : List (String × RubyValue)) :
    ∀ (this : t_tmbmt) (t : MriType),
      (applyAssigns this l).coders t =
        match lastAssigned l (mriName t) with
        | some v => compare_and_assign v
        | none => this.coders t := by
  induction l with
  | nil => intro this t; rfl
  | cons p rest ih =>
      intro this t
      obtain ⟨s, v⟩ := p
      show (applyAssigns (asetRun this s v).1 rest).coders t = _
      rw [ih]
      cases hrest : lastAssigned rest (mriName t) with
      | some w => simp [lastAssigned, hrest]
      | none =>
          simp only [lastAssigned, hrest]
          cases hname : mriTypeOfName s with
          | none =>
              have hne : s ≠ mriName t := by
                intro he
                rw [he, mriTypeOfName_mriName] at hname
                exact Option.noConfusion hname
              simp [asetRun, pg_tmbmt_aset, hname, hne]
          | some u =>
              have hs : s = mriName u := name_eq_of_mriTypeOfName hname
              simp only [asetRun, aset_valid this hname v]
              by_cases htu : t = u
              · subst htu
                simp [hs]
              · have hne : s ≠ mriName t := by
                  intro he
                  rw [he, mriTypeOfName_mriName] at hname
                  injection hname with h2
                  exact htu h2
                simp [hne, htu]

lemma applyAssigns_get (l : List (String × RubyValue)) (t : MriType) :
    compare_and_get ((applyAssigns pg_tmbmt_s_allocate l).coders t) =
      lastAssignedValue l (mriName t) := by
  rw [applyAssigns_coders]
  unfold lastAssignedValue
  cases lastAssigned l (mriName t) with
  | some v => exact compare_and_get_compare_and_assign v
  | none => rfl

/-- Claim C7: after any sequence of assignments applied to a fresh table,
the coders hash is frozen, holds exactly one entry per canonical name in
macro order — each valued at the most recently assigned value for that
name, or nil when never assigned — with no duplicate name, and each value
equals what lookup reports for that name. -/
theorem claim_C7_coders_complete_and_current (l : List (String × RubyValue)) :
    (pg_tmbmt_coders (applyAssigns pg_tmbmt_s_allocate l)).frozen = true ∧
    (pg_tmbmt_coders (applyAssigns pg_tmbmt_s_allocate l)).entries =
      mriTypeList.map (fun t => (mriName t, lastAssignedValue l (mriName t))) ∧
    ((pg_tmbmt_coders (applyAssigns pg_tmbmt_s_allocate l)).entries.map
      Prod.fst).Nodup ∧
    ∀ t : MriType,
      pg_tmbmt_aref (applyAssigns pg_tmbmt_s_allocate l) (mriName t) =
        .ok (lastAssignedValue l (mriName t)) := by
  refine ⟨rfl, ?_, ?_, ?_⟩
  · unfold pg_tmbmt_coders
    exact List.map_congr_left (fun t _ => by rw [applyAssigns_get])
  · unfold pg_tmbmt_coders
    rw [List.map_map]
    show (mriTypeList.map (fun t => mriName t)).Nodup
    decide
  · intro t
    simp [pg_tmbmt_aref, mriTypeOfName_mriName, applyAssigns_get]
